import Mathlib

/-!
Shallow embedding of the core of the taskflow-memory-server repository.

Three components are embedded, each from its TypeScript source:

* the asynchronous operation tracker, class AsyncOperationManager in
  src/core/utils/async-manager.ts (a JS Map from operation id to a record);
* the memory-bank document store, class MemoryManager in memory-manager.ts
  (a directory of named text documents over the filesystem);
* the context cache, class ContextManager in context-manager.ts (an
  LRU cache with a 15-minute TTL sitting in front of the store).

Modelling conventions: JS Map state becomes a function from String to
Option; Date.now timestamps become an Int parameter supplied by the
caller (the clock collaborator); the uuid generator becomes an explicit
id parameter; promise rejection becomes Except; the filesystem becomes
an explicit Fs record threaded through the store operations, with a
failWrite field describing which paths reject writes.  Store reads are
counted where a claim speaks about the number of reads: such operations
return the count of readMemoryFile calls they performed alongside their
result.  The LRU capacity bound (max 100 entries) is not modelled: no
claim below exercises capacity eviction; per-entry TTL is modelled, with
lru-cache semantics (an entry older than the TTL is treated as absent,
and the TTL is not refreshed on reads).
-/

/-! ## Asynchronous operation tracker (src/core/utils/async-manager.ts) -/

/-- The status field of an operation record. -/
inductive OpStatus where
  | pending
  | completed
  | failed
  deriving DecidableEq

/-- interface OperationStatus: one record of the tracker, parametric in
the payload type of the result field (typed any in the source). -/
structure OperationStatus (α : Type) where
  status : OpStatus
  startTime : Int
  endTime : Option Int := none
  duration : Option Int := none
  result : Option α := none
  error : Option String := none
  deriving DecidableEq

/-- The private operations field: a JS Map from operation id to record. -/
def OpMap (α : Type) : Type := String → Option (OperationStatus α)

/-- Map.get on the operations map. -/
def OpMap.get {α : Type} (m : OpMap α) (operationId : String) :
    Option (OperationStatus α) :=
  m operationId

/-- Map.set on the operations map: insert or overwrite under a key. -/
def OpMap.put {α : Type} (m : OpMap α) (operationId : String)
    (v : OperationStatus α) : OpMap α :=
  fun k => if k = operationId then some v else m k

/-- The freshly constructed manager holds no records. -/
def emptyOps {α : Type} : OpMap α := fun _ => none

/-- startOperation: record a new pending operation under a fresh id
(the uuid and the clock reading are parameters here). -/
def startOperation {α : Type} (m : OpMap α) (operationId : String)
    (now : Int) : OpMap α :=
  m.put operationId { status := .pending, startTime := now }

/-- The error argument of failOperation: a string, or an Error object
(of which only the message is used). -/
inductive ErrorInput where
  | str : String → ErrorInput
  | err : String → ErrorInput

/-- error instanceof Error ? error.message : error -/
def ErrorInput.message : ErrorInput → String
  | .str s => s
  | .err m => m

/-- completeOperation: on an unknown id, warn and return; otherwise
overwrite the record with status completed, a fresh endTime and
duration, and the result, keeping the remaining fields by spread.
(The scheduled one-hour deletion timer is outside this pure model.) -/
def completeOperation {α : Type} (m : OpMap α) (operationId : String)
    (now : Int) (result : α) : OpMap α :=
  match m.get operationId with
  | none => m
  | some operation =>
    let endTime := now
    let duration := endTime - operation.startTime
    m.put operationId
      { operation with
        status := .completed
        endTime := some endTime
        duration := some duration
        result := some result }

/-- failOperation: on an unknown id, warn and return; otherwise
overwrite the record with status failed, a fresh endTime and duration,
and the extracted error message, keeping the remaining fields by
spread. -/
def failOperation {α : Type} (m : OpMap α) (operationId : String)
    (now : Int) (error : ErrorInput) : OpMap α :=
  match m.get operationId with
  | none => m
  | some operation =>
    let endTime := now
    let duration := endTime - operation.startTime
    let errorMessage := error.message
    m.put operationId
      { operation with
        status := .failed
        endTime := some endTime
        duration := some duration
        error := some errorMessage }

/-- getOperationStatus: the record as stored, or null if not found. -/
def getOperationStatus {α : Type} (m : OpMap α) (operationId : String) :
    Option (OperationStatus α) :=
  m.get operationId

/-- getOperationResult: the record as stored, or null if not found. -/
def getOperationResult {α : Type} (m : OpMap α) (operationId : String) :
    Option (OperationStatus α) :=
  match m.get operationId with
  | none => none
  | some operation => some operation

/-- A pending record started at time 0 under id a, completed at time 5
with result 42. -/
def opsCompleted : OpMap Nat :=
  completeOperation (startOperation emptyOps "a" 0) "a" 5 42

/-- The completed record of opsCompleted, failed again at time 9. -/
def opsRefailed : OpMap Nat :=
  failOperation opsCompleted "a" 9 (ErrorInput.str "boom")

deriving instance DecidableEq for Except

/-! ## Memory-bank document store (memory-manager.ts) -/

/-- JS String.prototype.endsWith, as a suffix test on the character
sequences (String.endsWith of core Lean does not reduce in the kernel). -/
def jsEndsWith (s suffixStr : String) : Bool :=
  suffixStr.data.isSuffixOf s.data

/-- The filesystem collaborator (fs-extra): file contents by path, the
entries returned by readdir on the memory-bank directory (none when
readdir fails), which paths reject writes (with the rejection message),
and whether ensureDir on the memory-bank directory fails. -/
structure Fs where
  files : String → Option String
  dirEntries : Option (List String)
  failWrite : String → Option String
  failEnsureDir : Option String

/-- path.join of the memory-bank directory and a file name. -/
def pathJoin (dir name : String) : String := dir ++ "/" ++ name

/-- The mutable fields of the MemoryManager singleton. -/
structure MemoryState where
  memoryBankPath : String
  initialized : Bool

/-- fs.writeFile: rejects when the path is write-failing, otherwise
replaces the content stored at the path. -/
def writeFile (fs : Fs) (filePath content : String) : Except String Fs :=
  match fs.failWrite filePath with
  | some e => .error e
  | none =>
    .ok { fs with files := fun p => if p = filePath then some content else fs.files p }

/-- fs.pathExists on a file path. -/
def pathExists (fs : Fs) (filePath : String) : Bool :=
  (fs.files filePath).isSome

/-- readMemoryFile: read the file at path.join(memoryBankPath, fileName);
a missing or unreadable file rejects, and the error is rethrown. -/
def readMemoryFile (st : MemoryState) (fs : Fs) (fileName : String) :
    Except String String :=
  match fs.files (pathJoin st.memoryBankPath fileName) with
  | some content => .ok content
  | none => .error ("Failed to read Memory Bank file " ++ fileName)

/-- writeMemoryFile: ensureDir on the parent, then write the content at
path.join(memoryBankPath, fileName); write failures are rethrown. -/
def writeMemoryFile (st : MemoryState) (fs : Fs) (fileName content : String) :
    Except String Fs :=
  writeFile fs (pathJoin st.memoryBankPath fileName) content

/-- listMemoryFiles: readdir on the memory-bank directory, keeping only
names that end in .md; readdir failures are rethrown. -/
def listMemoryFiles (fs : Fs) : Except String (List String) :=
  match fs.dirEntries with
  | none => .error "Failed to list Memory Bank files"
  | some files => .ok (files.filter (fun file => jsEndsWith file ".md"))

/-- The defaultFiles array of ensureDefaultFiles: three named documents
with their fixed default contents. -/
def defaultFiles : List (String × String) :=
  [("projectbrief.md",
    "# Project Brief\n\nDefine your project requirements and goals here.\n"),
   ("activeContext.md",
    "# Active Context\n\nTrack your current focus and recent changes here.\n"),
   ("progress.md",
    "# Progress\n\nDocument your project progress and next steps here.\n")]

/-- The for-loop of ensureDefaultFiles: for each listed default, write
its content only when no file exists at its joined path; a write
failure aborts the loop with that error. -/
def ensureFilesLoop (st : MemoryState) :
    List (String × String) → Fs → Except String Fs
  | [], fs => .ok fs
  | file :: rest, fs =>
    let filePath := pathJoin st.memoryBankPath file.1
    if pathExists fs filePath then ensureFilesLoop st rest fs
    else
      match writeFile fs filePath file.2 with
      | .ok fs1 => ensureFilesLoop st rest fs1
      | .error e => .error e

/-- ensureDefaultFiles: seed the three default documents where absent. -/
def ensureDefaultFiles (st : MemoryState) (fs : Fs) : Except String Fs :=
  ensureFilesLoop st defaultFiles fs

/-- init: a no-op once initialized; otherwise ensureDir the memory-bank
directory, seed the default files, and mark the manager initialized;
any failure is rethrown and the initialized flag stays false. -/
def init (st : MemoryState) (fs : Fs) : Except String (MemoryState × Fs) :=
  if st.initialized then .ok (st, fs)
  else
    match fs.failEnsureDir with
    | some e => .error e
    | none =>
      match ensureDefaultFiles st fs with
      | .error e => .error e
      | .ok fs1 => .ok ({ st with initialized := true }, fs1)

/-- fs.stat(filePath).size: the byte size of the file content, rejecting
when the file is absent. -/
def statSize (fs : Fs) (filePath : String) : Except String Nat :=
  match fs.files filePath with
  | some content => .ok content.utf8ByteSize
  | none => .error ("ENOENT: no such file " ++ filePath)

/-- The awaited reduce of getStats: sum the stat sizes of the listed
files, aborting at the first stat failure. -/
def sumSizesLoop (st : MemoryState) (fs : Fs) :
    List String → Nat → Except String Nat
  | [], total => .ok total
  | file :: rest, total =>
    match statSize fs (pathJoin st.memoryBankPath file) with
    | .ok size => sumSizesLoop st fs rest (total + size)
    | .error e => .error e

/-- The return value of getStats: the normal payload of path, file
count, total size and initialized flag, or the degraded payload of an
error message and the initialized flag. -/
inductive StatsResult where
  | ok (path : String) (files : Nat) (totalSize : Nat) (initialized : Bool)
  | degraded (error : String) (initialized : Bool)
  deriving DecidableEq

/-- getStats: list the memory files and sum their stat sizes; any
failure along the way is caught and returned as the degraded payload —
the operation itself never throws. -/
def getStats (st : MemoryState) (fs : Fs) : StatsResult :=
  match listMemoryFiles fs with
  | .error e => .degraded e st.initialized
  | .ok files =>
    match sumSizesLoop st fs files 0 with
    | .error e => .degraded e st.initialized
    | .ok totalSize => .ok st.memoryBankPath files.length totalSize st.initialized

/-! ## Context cache (context-manager.ts) -/

/-- CACHE_OPTIONS.ttl: 15 minutes in milliseconds. -/
def cacheTtl : Int := 1000 * 60 * 15

/-- One lru-cache entry: the cached value and the clock reading at
which it was stored. -/
structure CacheEntry where
  value : String
  start : Int
  deriving DecidableEq

/-- The contextCache field: an LRU cache from context key to entry. -/
def Cache : Type := String → Option CacheEntry

/-- The freshly constructed cache is empty. -/
def emptyCache : Cache := fun _ => none

/-- lru-cache get: an entry older than the TTL is treated as absent;
a live entry yields its value (its TTL is not refreshed). -/
def cacheGet (c : Cache) (now : Int) (key : String) : Option String :=
  match c key with
  | none => none
  | some e => if now - e.start > cacheTtl then none else some e.value

/-- lru-cache set: store the value under the key with a fresh TTL. -/
def cacheSet (c : Cache) (now : Int) (key value : String) : Cache :=
  fun k => if k = key then some { value := value, start := now } else c k

/-- The cache-miss path of getContext: load from the Memory Bank,
cache the result on success, rethrow the read error on failure.  The
returned Nat counts readMemoryFile calls. -/
def getContextLoad (cache : Cache) (st : MemoryState) (fs : Fs) (now : Int)
    (contextKey : String) : Except String String × Cache × Nat :=
  match readMemoryFile st fs contextKey with
  | .ok content => (.ok content, cacheSet cache now contextKey content, 1)
  | .error e => (.error e, cache, 1)

/-- getContext: the JS truthiness test if (cachedContext) guards the
cache hit, so both an absent/expired entry and a cached empty string
fall through to the Memory Bank load. -/
def getContext (cache : Cache) (st : MemoryState) (fs : Fs) (now : Int)
    (contextKey : String) : Except String String × Cache × Nat :=
  match cacheGet cache now contextKey with
  | some cachedContext =>
    if cachedContext ≠ "" then (.ok cachedContext, cache, 0)
    else getContextLoad cache st fs now contextKey
  | none => getContextLoad cache st fs now contextKey

/-- updateContext: write through to the Memory Bank, then update the
cache with the written value; a write failure is rethrown and neither
the cache nor the filesystem changes. -/
def updateContext (cache : Cache) (st : MemoryState) (fs : Fs) (now : Int)
    (contextKey contextData : String) : Except String Unit × Cache × Fs :=
  match writeMemoryFile st fs contextKey contextData with
  | .ok fs1 => (.ok (), cacheSet cache now contextKey contextData, fs1)
  | .error e => (.error e, cache, fs)

/-- The for-loop of getCompleteContext: read every file directly via
readMemoryFile, accumulating the name-to-content map in insertion
order; the first read failure aborts the loop with that error.  The
returned Nat counts readMemoryFile calls. -/
def completeContextLoop (st : MemoryState) (fs : Fs) :
    List String → List (String × String) → Nat →
    Except String (List (String × String)) × Nat
  | [], context, reads => (.ok context, reads)
  | file :: rest, context, reads =>
    match readMemoryFile st fs file with
    | .ok content => completeContextLoop st fs rest (context ++ [(file, content)]) (reads + 1)
    | .error e => (.error e, reads + 1)

/-- getCompleteContext: list the memory files and read each one from
the Memory Bank.  The method has the context cache in scope but never
consults or updates it, which the unused first argument records. -/
def getCompleteContext (_cache : Cache) (st : MemoryState) (fs : Fs) :
    Except String (List (String × String)) × Nat :=
  match listMemoryFiles fs with
  | .error e => (.error e, 0)
  | .ok files => completeContextLoop st fs files [] 0

/-! ## Concrete instances used by counterexamples and witnesses -/

/-- A memory manager over the default path, already initialized. -/
def mbSt : MemoryState := { memoryBankPath := "./memory-bank", initialized := true }

/-- A filesystem holding one document a.md with content stored, one
non-document note.txt entry in the listing, and no write failures. -/
def fsA : Fs :=
  { files := fun p => if p = "./memory-bank/a.md" then some "stored" else none,
    dirEntries := some ["a.md", "note.txt"],
    failWrite := fun _ => none,
    failEnsureDir := none }

/-- A cache holding a live entry for a.md with the value cached. -/
def demoCacheA : Cache := cacheSet emptyCache 0 "a.md" "cached"

/-- A cache holding a live entry for a.md whose value is the empty
string. -/
def cacheEmptyVal : Cache := cacheSet emptyCache 0 "a.md" ""

/-- A filesystem whose write to k.md rejects with disk full. -/
def fsFailW : Fs :=
  { files := fun _ => none,
    dirEntries := some [],
    failWrite := fun p => if p = "./memory-bank/k.md" then some "disk full" else none,
    failEnsureDir := none }

/-- A filesystem whose listing names a.md although the file itself is
missing, so reading or stat-ing the listed document fails. -/
def fsMissing : Fs :=
  { files := fun _ => none,
    dirEntries := some ["a.md"],
    failWrite := fun _ => none,
    failEnsureDir := none }

/-- A memory manager over the default path, not yet initialized. -/
def st0 : MemoryState := { memoryBankPath := "./memory-bank", initialized := false }

/-- A fresh, fully writable filesystem with an empty directory. -/
def fsFresh : Fs :=
  { files := fun _ => none,
    dirEntries := some [],
    failWrite := fun _ => none,
    failEnsureDir := none }

/-- A filesystem whose directory cannot be listed (deleted or
inaccessible store directory). -/
def fsNoDir : Fs :=
  { files := fun _ => none,
    dirEntries := none,
    failWrite := fun _ => none,
    failEnsureDir := none }

/-! ## Helper lemmas -/

theorem OpMap.get_put_self {α : Type} (m : OpMap α) (operationId : String)
    (v : OperationStatus α) : (m.put operationId v).get operationId = some v := by
  simp [OpMap.get, OpMap.put]

theorem OpMap.get_put_ne {α : Type} (m : OpMap α) {operationId k : String}
    (v : OperationStatus α) (h : k ≠ operationId) :
    (m.put operationId v).get k = m.get k := by
  simp [OpMap.get, OpMap.put, h]

/-! ## Claims about the asynchronous operation tracker -/

/-- C1 (counterexample): a record completed at time 5 with result 42 is
not terminal — a later failOperation on the same id overwrites its
status, timing and error, while the stale result is kept by the spread. -/
theorem completed_status_overwritten_by_fail :
    getOperationStatus opsCompleted "a" =
      some { status := .completed, startTime := 0, endTime := some 5,
             duration := some 5, result := some 42, error := none } ∧
    getOperationStatus opsRefailed "a" =
      some { status := .failed, startTime := 0, endTime := some 9,
             duration := some 9, result := some 42, error := some "boom" } := by
  decide

/-- C1 (amended): completeOperation and failOperation on an id present
in the record map are unconditional overwrites: whatever the current
status of the record — pending or already terminal — complete sets
status completed with a fresh endTime, duration and result, and fail
sets status failed with a fresh endTime, duration and error message;
terminal states are not enforced by the code. -/
theorem terminal_transition_unconditional_overwrite {α : Type}
    (m : OpMap α) (operationId : String) (op : OperationStatus α)
    (now : Int) (result : α) (error : ErrorInput)
    (h : m.get operationId = some op) :
    (completeOperation m operationId now result).get operationId =
      some { op with
             status := .completed, endTime := some now,
             duration := some (now - op.startTime), result := some result } ∧
    (failOperation m operationId now error).get operationId =
      some { op with
             status := .failed, endTime := some now,
             duration := some (now - op.startTime), error := some error.message } := by
  constructor
  · simp [completeOperation, h, OpMap.get_put_self]
  · simp [failOperation, h, OpMap.get_put_self]

/-- C1 (witness): the amended overwrite theorem applied to the concrete
already-completed record of opsCompleted. -/
theorem terminal_transition_unconditional_overwrite_witness :
    OpMap.get opsCompleted "a" =
      some { status := .completed, startTime := 0, endTime := some 5,
             duration := some 5, result := some 42, error := none } ∧
    ((completeOperation opsCompleted "a" 9 7).get "a" =
      some { status := .completed, startTime := 0, endTime := some 9,
             duration := some 9, result := some 7, error := none } ∧
    (failOperation opsCompleted "a" 9 (ErrorInput.str "late")).get "a" =
      some { status := .failed, startTime := 0, endTime := some 9,
             duration := some 9, result := some 42, error := some "late" }) :=
  ⟨by decide,
   terminal_transition_unconditional_overwrite opsCompleted "a"
     { status := .completed, startTime := 0, endTime := some 5,
       duration := some 5, result := some 42, error := none }
     9 7 (ErrorInput.str "late") (by decide)⟩

/-- C4 (counterexample): getOperationStatus does not omit the result
and error fields — on the concrete completed record it returns the
record with result 42, and on the refailed record with error boom. -/
theorem getOperationStatus_includes_result :
    (getOperationStatus opsCompleted "a").map OperationStatus.result =
      some (some 42) ∧
    (getOperationStatus opsRefailed "a").map OperationStatus.error =
      some (some "boom") := by
  decide

/-- C4 (amended): getOperationStatus returns the stored record in full
— after completeOperation the returned record carries the result, after
failOperation it carries the error message — and returns null on an
unknown or garbage-collected id; being a total function it never
throws. -/
theorem getOperationStatus_full_record {α : Type}
    (m : OpMap α) (operationId : String) (op : OperationStatus α)
    (now : Int) (result : α) (error : ErrorInput)
    (h : m.get operationId = some op) :
    ((getOperationStatus (completeOperation m operationId now result)
        operationId).map OperationStatus.result = some (some result) ∧
     (getOperationStatus (failOperation m operationId now error)
        operationId).map OperationStatus.error = some (some error.message)) ∧
    ∀ unknownId, m.get unknownId = none →
      getOperationStatus m unknownId = none := by
  refine ⟨⟨?_, ?_⟩, ?_⟩
  · simp [getOperationStatus, completeOperation, h, OpMap.get_put_self]
  · simp [getOperationStatus, failOperation, h, OpMap.get_put_self]
  · intro unknownId hu
    simpa [getOperationStatus] using hu

/-- C4 (witness): the full-record theorem applied to the concrete
completed record of opsCompleted and the unknown id nonexistent. -/
theorem getOperationStatus_full_record_witness :
    OpMap.get opsCompleted "a" =
      some { status := .completed, startTime := 0, endTime := some 5,
             duration := some 5, result := some 42, error := none } ∧
    (((getOperationStatus (completeOperation opsCompleted "a" 9 7)
        "a").map OperationStatus.result = some (some 7) ∧
      (getOperationStatus (failOperation opsCompleted "a" 9 (ErrorInput.str "late"))
        "a").map OperationStatus.error = some (some "late")) ∧
     ∀ unknownId, OpMap.get opsCompleted unknownId = none →
       getOperationStatus opsCompleted unknownId = none) :=
  ⟨by decide,
   (getOperationStatus_full_record opsCompleted "a"
     { status := .completed, startTime := 0, endTime := some 5,
       duration := some 5, result := some 42, error := none }
     9 7 (ErrorInput.str "late") (by decide)).imp_right id⟩

/-- C8: on an id not present in the record map, completeOperation and
failOperation return the map unchanged (after logging a warning), and
getOperationStatus and getOperationResult return null; all four are
total functions, so none of them throws. -/
theorem unknown_id_safe {α : Type} (m : OpMap α) (operationId : String)
    (now : Int) (result : α) (error : ErrorInput)
    (h : m.get operationId = none) :
    completeOperation m operationId now result = m ∧
    failOperation m operationId now error = m ∧
    getOperationStatus m operationId = none ∧
    getOperationResult m operationId = none := by
  refine ⟨?_, ?_, ?_, ?_⟩
  · simp [completeOperation, h]
  · simp [failOperation, h]
  · simpa [getOperationStatus] using h
  · simp [getOperationResult, h]

/-- C8 (witness): the unknown-id theorem applied to the empty map and
the id nonexistent. -/
theorem unknown_id_safe_witness :
    OpMap.get (emptyOps (α := Nat)) "nonexistent" = none ∧
    (completeOperation (emptyOps (α := Nat)) "nonexistent" 0 7 = emptyOps ∧
     failOperation (emptyOps (α := Nat)) "nonexistent" 0 (ErrorInput.str "x") = emptyOps ∧
     getOperationStatus (emptyOps (α := Nat)) "nonexistent" = none ∧
     getOperationResult (emptyOps (α := Nat)) "nonexistent" = none) :=
  ⟨rfl, unknown_id_safe emptyOps "nonexistent" 0 7 (ErrorInput.str "x") rfl⟩

/-- C10: on an id present in the record map, completeOperation and
failOperation keep the record's original startTime, store endTime now
and duration now minus the original startTime, and leave the record
under every other id unchanged. -/
theorem terminal_transition_frame {α : Type}
    (m : OpMap α) (operationId : String) (op : OperationStatus α)
    (now : Int) (result : α) (error : ErrorInput)
    (h : m.get operationId = some op) :
    (((completeOperation m operationId now result).get operationId).map
        OperationStatus.startTime = some op.startTime ∧
     ((completeOperation m operationId now result).get operationId).map
        OperationStatus.endTime = some (some now) ∧
     ((completeOperation m operationId now result).get operationId).map
        OperationStatus.duration = some (some (now - op.startTime))) ∧
    (((failOperation m operationId now error).get operationId).map
        OperationStatus.startTime = some op.startTime ∧
     ((failOperation m operationId now error).get operationId).map
        OperationStatus.endTime = some (some now) ∧
     ((failOperation m operationId now error).get operationId).map
        OperationStatus.duration = some (some (now - op.startTime))) ∧
    ∀ otherId, otherId ≠ operationId →
      (completeOperation m operationId now result).get otherId = m.get otherId ∧
      (failOperation m operationId now error).get otherId = m.get otherId := by
  refine ⟨⟨?_, ?_, ?_⟩, ⟨?_, ?_, ?_⟩, ?_⟩
  · simp [completeOperation, h, OpMap.get_put_self]
  · simp [completeOperation, h, OpMap.get_put_self]
  · simp [completeOperation, h, OpMap.get_put_self]
  · simp [failOperation, h, OpMap.get_put_self]
  · simp [failOperation, h, OpMap.get_put_self]
  · simp [failOperation, h, OpMap.get_put_self]
  · intro otherId hne
    exact ⟨by simp [completeOperation, h, OpMap.get_put_ne _ _ hne],
           by simp [failOperation, h, OpMap.get_put_ne _ _ hne]⟩

/-- C10 (witness): the frame theorem applied to a two-record map where
the record under b keeps its value while a is completed or failed. -/
theorem terminal_transition_frame_witness :
    OpMap.get (startOperation (startOperation (emptyOps (α := Nat)) "b" 2) "a" 3) "a" =
      some { status := .pending, startTime := 3 } ∧
    ((((completeOperation (startOperation (startOperation (emptyOps (α := Nat)) "b" 2) "a" 3)
          "a" 10 5).get "a").map OperationStatus.startTime = some 3 ∧
      (((completeOperation (startOperation (startOperation (emptyOps (α := Nat)) "b" 2) "a" 3)
          "a" 10 5).get "a").map OperationStatus.endTime = some (some 10) ∧
       ((completeOperation (startOperation (startOperation (emptyOps (α := Nat)) "b" 2) "a" 3)
          "a" 10 5).get "a").map OperationStatus.duration = some (some 7))) ∧
     True ∧
     ((completeOperation (startOperation (startOperation (emptyOps (α := Nat)) "b" 2) "a" 3)
        "a" 10 5).get "b" =
        OpMap.get (startOperation (startOperation (emptyOps (α := Nat)) "b" 2) "a" 3) "b" ∧
      (failOperation (startOperation (startOperation (emptyOps (α := Nat)) "b" 2) "a" 3)
        "a" 10 (ErrorInput.str "x")).get "b" =
        OpMap.get (startOperation (startOperation (emptyOps (α := Nat)) "b" 2) "a" 3) "b")) := by
  have h := terminal_transition_frame
    (startOperation (startOperation (emptyOps (α := Nat)) "b" 2) "a" 3)
    "a" { status := .pending, startTime := 3 } 10 5 (ErrorInput.str "x") (by decide)
  exact ⟨by decide,
    ⟨⟨h.1.1, by simpa using h.1.2.1, by simpa using h.1.2.2⟩, trivial,
     h.2.2 "b" (by decide)⟩⟩

/-! ## Claims about the context cache -/

/-- C2 (counterexample): a.md holds a live cache entry whose cached
value is the empty string, yet getContext performs a store read and
returns the store content rather than the cached value. -/
theorem cached_empty_string_triggers_store_read :
    cacheGet cacheEmptyVal 0 "a.md" = some "" ∧
    (getContext cacheEmptyVal mbSt fsA 0 "a.md").1 = .ok "stored" ∧
    (getContext cacheEmptyVal mbSt fsA 0 "a.md").2.2 = 1 := by
  decide

/-- C2 (amended): a live cache entry whose value is non-empty (truthy)
is returned directly with no store read; a key with no live entry
performs exactly one store read; and an immediately following
getContext of the same key performs zero additional store reads
provided the loaded content is non-empty (a cached empty string is
falsy and falls through to another store read). -/
theorem cache_read_through (cache : Cache) (st : MemoryState) (fs : Fs)
    (now now2 : Int) (key : String) :
    (∀ v, cacheGet cache now key = some v → v ≠ "" →
      getContext cache st fs now key = (.ok v, cache, 0)) ∧
    (cacheGet cache now key = none →
      (getContext cache st fs now key).2.2 = 1) ∧
    (∀ content, cacheGet cache now key = none →
      readMemoryFile st fs key = .ok content → content ≠ "" →
      now2 - now ≤ cacheTtl →
      getContext (getContext cache st fs now key).2.1 st fs now2 key =
        (.ok content, (getContext cache st fs now key).2.1, 0)) := by
  refine ⟨?_, ?_, ?_⟩
  · intro v hv hne
    simp [getContext, hv, hne]
  · intro h
    cases hr : readMemoryFile st fs key <;>
      simp [getContext, h, getContextLoad, hr]
  · intro content h hr hne httl
    have h1 : getContext cache st fs now key =
        (.ok content, cacheSet cache now key content, 1) := by
      simp [getContext, h, getContextLoad, hr]
    rw [h1]
    have hlive : cacheGet (cacheSet cache now key content) now2 key = some content := by
      simp [cacheGet, cacheSet, not_lt.mpr httl]
    simp [getContext, hlive, hne]

/-- C2 (witness): the read-through theorem applied to the concrete
cache holding cached under a.md, and to the empty cache over the
filesystem storing stored under a.md. -/
theorem cache_read_through_witness :
    (cacheGet demoCacheA 0 "a.md" = some "cached" ∧
     cacheGet emptyCache 0 "a.md" = none ∧
     readMemoryFile mbSt fsA "a.md" = .ok "stored") ∧
    (getContext demoCacheA mbSt fsA 0 "a.md" = (.ok "cached", demoCacheA, 0) ∧
     (getContext emptyCache mbSt fsA 0 "a.md").2.2 = 1 ∧
     getContext (getContext emptyCache mbSt fsA 0 "a.md").2.1 mbSt fsA 0 "a.md" =
       (.ok "stored", (getContext emptyCache mbSt fsA 0 "a.md").2.1, 0)) :=
  ⟨⟨by decide, by decide, by decide⟩,
   ⟨(cache_read_through demoCacheA mbSt fsA 0 0 "a.md").1 "cached"
      (by decide) (by decide),
    (cache_read_through emptyCache mbSt fsA 0 0 "a.md").2.1 (by decide),
    (cache_read_through emptyCache mbSt fsA 0 0 "a.md").2.2 "stored"
      (by decide) (by decide) (by decide) (by decide)⟩⟩

/-- C5: updateContext writes the value through to the store and then
refreshes the cache entry with it, whatever was cached before; when
the store write rejects, the error is rethrown and both the cache and
the filesystem are left exactly as they were. -/
theorem updateContext_write_through (cache : Cache) (st : MemoryState)
    (fs : Fs) (now : Int) (key value : String) :
    (∀ e, fs.failWrite (pathJoin st.memoryBankPath key) = some e →
      updateContext cache st fs now key value = (.error e, cache, fs)) ∧
    (fs.failWrite (pathJoin st.memoryBankPath key) = none →
      updateContext cache st fs now key value =
        (.ok (), cacheSet cache now key value,
         { fs with
           files := fun p =>
             if p = pathJoin st.memoryBankPath key then some value
             else fs.files p })) := by
  constructor
  · intro e he
    simp [updateContext, writeMemoryFile, writeFile, he]
  · intro hw
    simp [updateContext, writeMemoryFile, writeFile, hw]

/-- C5 (witness): the write-through theorem applied to the rejecting
filesystem fsFailW and to the accepting filesystem fsA. -/
theorem updateContext_write_through_witness :
    (fsFailW.failWrite (pathJoin "./memory-bank" "k.md") = some "disk full" ∧
     fsA.failWrite (pathJoin "./memory-bank" "k.md") = none) ∧
    (updateContext demoCacheA mbSt fsFailW 0 "k.md" "v" =
       (.error "disk full", demoCacheA, fsFailW) ∧
     updateContext demoCacheA mbSt fsA 0 "k.md" "v" =
       (.ok (), cacheSet demoCacheA 0 "k.md" "v",
        { fsA with
          files := fun p =>
            if p = pathJoin "./memory-bank" "k.md" then some "v"
            else fsA.files p })) :=
  ⟨⟨by decide, by decide⟩,
   (updateContext_write_through demoCacheA mbSt fsFailW 0 "k.md" "v").1
     "disk full" (by decide),
   (updateContext_write_through demoCacheA mbSt fsA 0 "k.md" "v").2
     (by decide)⟩

/-- C6 (counterexample): updateContext of the empty string under k.md
followed immediately by getContext of k.md does return the written
empty string, but it performs a store read rather than answering from
the cache. -/
theorem update_empty_then_get_reads_store :
    (getContext (updateContext emptyCache mbSt fsA 0 "k.md" "").2.1 mbSt
       (updateContext emptyCache mbSt fsA 0 "k.md" "").2.2 0 "k.md").1 = .ok "" ∧
    (getContext (updateContext emptyCache mbSt fsA 0 "k.md" "").2.1 mbSt
       (updateContext emptyCache mbSt fsA 0 "k.md" "").2.2 0 "k.md").2.2 = 1 := by
  decide

/-- C6 (amended): after a successful updateContext of value under key,
an immediately following getContext of key returns that value; it does
so without touching the store when the value is non-empty, while for
the empty string the falsy cached value forces one store read (which
still yields the just-written value). -/
theorem update_then_get_round_trip (cache : Cache) (st : MemoryState)
    (fs : Fs) (now now2 : Int) (key value : String)
    (hw : fs.failWrite (pathJoin st.memoryBankPath key) = none)
    (httl : now2 - now ≤ cacheTtl) :
    (value ≠ "" →
      getContext (updateContext cache st fs now key value).2.1 st
        (updateContext cache st fs now key value).2.2 now2 key =
        (.ok value, (updateContext cache st fs now key value).2.1, 0)) ∧
    (getContext (updateContext cache st fs now key value).2.1 st
        (updateContext cache st fs now key value).2.2 now2 key).1 = .ok value ∧
    (value = "" →
      (getContext (updateContext cache st fs now key value).2.1 st
        (updateContext cache st fs now key value).2.2 now2 key).2.2 = 1) := by
  have hupd : updateContext cache st fs now key value =
      (.ok (), cacheSet cache now key value,
       { fs with
         files := fun p =>
           if p = pathJoin st.memoryBankPath key then some value
           else fs.files p }) := by
    simp [updateContext, writeMemoryFile, writeFile, hw]
  have hlive : cacheGet (cacheSet cache now key value) now2 key = some value := by
    simp [cacheGet, cacheSet, not_lt.mpr httl]
  rw [hupd]
  by_cases hv : value = ""
  · subst hv
    refine ⟨fun hne => absurd rfl hne, ?_, fun _ => ?_⟩ <;>
      simp [getContext, hlive, getContextLoad, readMemoryFile]
  · refine ⟨fun _ => ?_, ?_, fun he => absurd he hv⟩ <;>
      simp [getContext, hlive, hv]

/-- C6 (witness): the round-trip theorem applied to the non-empty
value v and to the empty value under k.md over the accepting
filesystem fsA. -/
theorem update_then_get_round_trip_witness :
    (fsA.failWrite (pathJoin "./memory-bank" "k.md") = none ∧
     (0 : Int) - 0 ≤ cacheTtl) ∧
    (getContext (updateContext emptyCache mbSt fsA 0 "k.md" "v").2.1 mbSt
       (updateContext emptyCache mbSt fsA 0 "k.md" "v").2.2 0 "k.md" =
       (.ok "v", (updateContext emptyCache mbSt fsA 0 "k.md" "v").2.1, 0)) ∧
    (getContext (updateContext emptyCache mbSt fsA 0 "k.md" "").2.1 mbSt
       (updateContext emptyCache mbSt fsA 0 "k.md" "").2.2 0 "k.md").2.2 = 1 :=
  ⟨⟨by decide, by decide⟩,
   (update_then_get_round_trip emptyCache mbSt fsA 0 0 "k.md" "v"
      (by decide) (by decide)).1 (by decide),
   (update_then_get_round_trip emptyCache mbSt fsA 0 0 "k.md" ""
      (by decide) (by decide)).2.2 rfl⟩


/-- The read loop of getCompleteContext on a list of readable files
appends their contents in order and counts one read per file. -/
theorem completeContextLoop_ok (st : MemoryState) (fs : Fs)
    (content : String → String) (l : List String) :
    ∀ (acc : List (String × String)) (reads : Nat),
      (∀ f ∈ l, readMemoryFile st fs f = .ok (content f)) →
      completeContextLoop st fs l acc reads =
        (.ok (acc ++ l.map (fun f => (f, content f))), reads + l.length) := by
  induction l with
  | nil => intro acc reads _; simp [completeContextLoop]
  | cons f rest ih =>
    intro acc reads h
    have hf : readMemoryFile st fs f = .ok (content f) := h f (by simp)
    have ihr := ih (acc ++ [(f, content f)]) (reads + 1)
      (fun g hg => h g (by simp [hg]))
    simp only [completeContextLoop, hf, ihr]
    refine Prod.ext ?_ ?_
    · simp
    · simp
      omega

/-- The read loop of getCompleteContext aborts with the error of the
first unreadable file. -/
theorem completeContextLoop_error (st : MemoryState) (fs : Fs)
    (e : String) (f : String) (post : List String)
    (hf : readMemoryFile st fs f = .error e) :
    ∀ (pre : List String) (acc : List (String × String)) (reads : Nat),
      (∀ g ∈ pre, ∃ c, readMemoryFile st fs g = .ok c) →
      (completeContextLoop st fs (pre ++ f :: post) acc reads).1 = .error e := by
  intro pre
  induction pre with
  | nil => intro acc reads _; simp [completeContextLoop, hf]
  | cons g rest ih =>
    intro acc reads h
    obtain ⟨c, hc⟩ := h g (by simp)
    rw [List.cons_append]
    simp only [completeContextLoop, hc]
    exact ih (acc ++ [(g, c)]) (reads + 1) (fun g2 hg2 => h g2 (by simp [hg2]))

/-! ## Claims about getCompleteContext -/

/-- C3 (counterexample): a.md holds a live cache entry with value
cached, and the cache-consulting getContext would return it with zero
store reads; yet getCompleteContext returns the store content stored
for a.md and performs a store read, so it does not consult the cache. -/
theorem getCompleteContext_ignores_cache :
    cacheGet demoCacheA 100 "a.md" = some "cached" ∧
    getContext demoCacheA mbSt fsA 100 "a.md" = (.ok "cached", demoCacheA, 0) ∧
    getCompleteContext demoCacheA mbSt fsA = (.ok [("a.md", "stored")], 1) :=
  ⟨by decide, rfl, by decide⟩

/-- C3 (amended): getCompleteContext reads every key returned by the
store listing directly from the store via readMemoryFile — the cache
is neither consulted nor updated, so its content never affects the
outcome — aggregates the results into a name-to-content mapping in
listing order, and if reading any one document fails, the whole
aggregate fails with that document error and no partial mapping is
returned. -/
theorem getCompleteContext_reads_store_directly :
    (∀ (cache : Cache) (st : MemoryState) (fs : Fs) (files : List String)
       (content : String → String),
      listMemoryFiles fs = .ok files →
      (∀ f ∈ files, readMemoryFile st fs f = .ok (content f)) →
      getCompleteContext cache st fs =
        (.ok (files.map (fun f => (f, content f))), files.length)) ∧
    (∀ (cache : Cache) (st : MemoryState) (fs : Fs)
       (files pre post : List String) (f : String) (e : String),
      listMemoryFiles fs = .ok files →
      files = pre ++ f :: post →
      (∀ g ∈ pre, ∃ c, readMemoryFile st fs g = .ok c) →
      readMemoryFile st fs f = .error e →
      (getCompleteContext cache st fs).1 = .error e) ∧
    (∀ (cache1 cache2 : Cache) (st : MemoryState) (fs : Fs),
      getCompleteContext cache1 st fs = getCompleteContext cache2 st fs) := by
  refine ⟨?_, ?_, ?_⟩
  · intro cache st fs files content hlist hread
    simp [getCompleteContext, hlist,
      completeContextLoop_ok st fs content files [] 0 hread]
  · intro cache st fs files pre post f e hlist hsplit hpre hf
    subst hsplit
    simp [getCompleteContext, hlist,
      completeContextLoop_error st fs e f post hf pre [] 0 hpre]
  · intro cache1 cache2 st fs
    rfl

/-- C3 (witness): the amended theorem applied to the concrete
filesystem fsA (success and cache-independence) and to the filesystem
fsMissing listing a missing document (abort with its error). -/
theorem getCompleteContext_reads_store_directly_witness :
    (listMemoryFiles fsA = .ok ["a.md"] ∧
     readMemoryFile mbSt fsA "a.md" = .ok "stored" ∧
     listMemoryFiles fsMissing = .ok ["a.md"] ∧
     readMemoryFile mbSt fsMissing "a.md" =
       .error "Failed to read Memory Bank file a.md") ∧
    (getCompleteContext demoCacheA mbSt fsA = (.ok [("a.md", "stored")], 1) ∧
     (getCompleteContext emptyCache mbSt fsMissing).1 =
       .error "Failed to read Memory Bank file a.md" ∧
     getCompleteContext demoCacheA mbSt fsA = getCompleteContext emptyCache mbSt fsA) :=
  ⟨⟨by decide, by decide, by decide, by decide⟩,
   getCompleteContext_reads_store_directly.1 demoCacheA mbSt fsA
     ["a.md"] (fun _ => "stored") (by decide) (by
       intro f hf
       simp at hf
       subst hf
       decide),
   getCompleteContext_reads_store_directly.2.1 emptyCache mbSt fsMissing
     ["a.md"] [] [] "a.md" "Failed to read Memory Bank file a.md"
     (by decide) rfl (by simp) (by decide),
   getCompleteContext_reads_store_directly.2.2 demoCacheA emptyCache mbSt fsA⟩

/-- pathJoin is injective in the file name for a fixed directory. -/
theorem pathJoin_inj (d : String) {a b : String}
    (h : pathJoin d a = pathJoin d b) : a = b := by
  have hd := congrArg String.data h
  simp only [pathJoin, String.data_append] at hd
  have h2 := List.append_cancel_left hd
  cases a; cases b
  simp at h2
  rw [h2]

/-- A successful writeFile means the path accepted the write, and the
result changes exactly the written path of the files map. -/
theorem writeFile_ok {fs fs2 : Fs} {filePath content : String}
    (hw : writeFile fs filePath content = .ok fs2) :
    fs.failWrite filePath = none ∧
    fs2 = { fs with
            files := fun p => if p = filePath then some content else fs.files p } := by
  cases hfw : fs.failWrite filePath with
  | some e => simp [writeFile, hfw] at hw
  | none =>
    simp [writeFile, hfw] at hw
    exact ⟨rfl, hw.symm⟩

/-- The seeding loop never loses an existing file: any path that held
some content before still holds it afterwards. -/
theorem ensureFilesLoop_preserves (st : MemoryState) :
    ∀ (l : List (String × String)) (fs fs1 : Fs),
      ensureFilesLoop st l fs = .ok fs1 →
      ∀ p c, fs.files p = some c → fs1.files p = some c := by
  intro l
  induction l with
  | nil =>
    intro fs fs1 h p c hp
    simp [ensureFilesLoop] at h
    rw [← h]
    exact hp
  | cons file rest ih =>
    intro fs fs1 h p c hp
    by_cases he : pathExists fs (pathJoin st.memoryBankPath file.1)
    · rw [ensureFilesLoop, if_pos he] at h
      exact ih fs fs1 h p c hp
    · rw [ensureFilesLoop, if_neg he] at h
      cases hw : writeFile fs (pathJoin st.memoryBankPath file.1) file.2 with
      | error e => rw [hw] at h; cases h
      | ok fs2 =>
        rw [hw] at h
        obtain ⟨-, hfs2⟩ := writeFile_ok hw
        refine ih fs2 fs1 h p c ?_
        subst hfs2
        have hne : p ≠ pathJoin st.memoryBankPath file.1 := by
          intro hpe
          rw [hpe] at hp
          simp [pathExists, hp] at he
        simpa [hne] using hp

/-- The seeding loop changes no path other than the joined paths of
its listed defaults. -/
theorem ensureFilesLoop_frame (st : MemoryState) :
    ∀ (l : List (String × String)) (fs fs1 : Fs),
      ensureFilesLoop st l fs = .ok fs1 →
      ∀ p, (∀ pr ∈ l, p ≠ pathJoin st.memoryBankPath pr.1) →
        fs1.files p = fs.files p := by
  intro l
  induction l with
  | nil =>
    intro fs fs1 h p _
    simp [ensureFilesLoop] at h
    rw [← h]
  | cons file rest ih =>
    intro fs fs1 h p hp
    have hhead : p ≠ pathJoin st.memoryBankPath file.1 := hp file (by simp)
    have hrest : ∀ pr ∈ rest, p ≠ pathJoin st.memoryBankPath pr.1 :=
      fun pr hpr => hp pr (by simp [hpr])
    by_cases he : pathExists fs (pathJoin st.memoryBankPath file.1)
    · rw [ensureFilesLoop, if_pos he] at h
      exact ih fs fs1 h p hrest
    · rw [ensureFilesLoop, if_neg he] at h
      cases hw : writeFile fs (pathJoin st.memoryBankPath file.1) file.2 with
      | error e => rw [hw] at h; cases h
      | ok fs2 =>
        rw [hw] at h
        obtain ⟨-, hfs2⟩ := writeFile_ok hw
        rw [ih fs2 fs1 h p hrest]
        subst hfs2
        simp [hhead]

/-- The seeding loop creates every listed default that was absent,
provided the listed defaults live at pairwise distinct joined paths. -/
theorem ensureFilesLoop_creates (st : MemoryState) :
    ∀ (l : List (String × String)) (fs fs1 : Fs),
      ensureFilesLoop st l fs = .ok fs1 →
      List.Pairwise (fun x y : String × String =>
        pathJoin st.memoryBankPath x.1 ≠ pathJoin st.memoryBankPath y.1) l →
      ∀ pr ∈ l, fs.files (pathJoin st.memoryBankPath pr.1) = none →
        fs1.files (pathJoin st.memoryBankPath pr.1) = some pr.2 := by
  intro l
  induction l with
  | nil => intro fs fs1 _ _ pr hpr; simp at hpr
  | cons file rest ih =>
    intro fs fs1 h hpw pr hpr habs
    rw [List.pairwise_cons] at hpw
    rw [List.mem_cons] at hpr
    rcases hpr with rfl | hpr
    · have he : ¬ pathExists fs (pathJoin st.memoryBankPath pr.1) := by
        simp [pathExists, habs]
      rw [ensureFilesLoop, if_neg he] at h
      cases hw : writeFile fs (pathJoin st.memoryBankPath pr.1) pr.2 with
      | error e => rw [hw] at h; cases h
      | ok fs2 =>
        rw [hw] at h
        obtain ⟨-, hfs2⟩ := writeFile_ok hw
        refine ensureFilesLoop_preserves st rest fs2 fs1 h _ _ ?_
        subst hfs2
        simp
    · have hne : pathJoin st.memoryBankPath file.1 ≠
          pathJoin st.memoryBankPath pr.1 := hpw.1 pr hpr
      have hne2 : pathJoin st.memoryBankPath pr.1 ≠
          pathJoin st.memoryBankPath file.1 := fun hpe => hne hpe.symm
      by_cases he : pathExists fs (pathJoin st.memoryBankPath file.1)
      · rw [ensureFilesLoop, if_pos he] at h
        exact ih fs fs1 h hpw.2 pr hpr habs
      · rw [ensureFilesLoop, if_neg he] at h
        cases hw : writeFile fs (pathJoin st.memoryBankPath file.1) file.2 with
        | error e => rw [hw] at h; cases h
        | ok fs2 =>
          rw [hw] at h
          obtain ⟨-, hfs2⟩ := writeFile_ok hw
          refine ih fs2 fs1 h hpw.2 pr hpr ?_
          subst hfs2
          simpa [hne2] using habs

/-- The seeding loop succeeds whenever every listed default path
accepts writes. -/
theorem ensureFilesLoop_total (st : MemoryState) :
    ∀ (l : List (String × String)) (fs : Fs),
      (∀ pr ∈ l, fs.failWrite (pathJoin st.memoryBankPath pr.1) = none) →
      ∃ fs1, ensureFilesLoop st l fs = .ok fs1 := by
  intro l
  induction l with
  | nil => intro fs _; exact ⟨fs, by simp [ensureFilesLoop]⟩
  | cons file rest ih =>
    intro fs hw
    by_cases he : pathExists fs (pathJoin st.memoryBankPath file.1)
    · obtain ⟨fs1, h1⟩ := ih fs (fun pr hpr => hw pr (by simp [hpr]))
      exact ⟨fs1, by rw [ensureFilesLoop, if_pos he]; exact h1⟩
    · have hfw : fs.failWrite (pathJoin st.memoryBankPath file.1) = none :=
        hw file (by simp)
      have hwf : writeFile fs (pathJoin st.memoryBankPath file.1) file.2 =
          .ok { fs with
                files := fun p =>
                  if p = pathJoin st.memoryBankPath file.1 then some file.2
                  else fs.files p } := by
        simp [writeFile, hfw]
      obtain ⟨fs1, h1⟩ := ih
        { fs with
          files := fun p =>
            if p = pathJoin st.memoryBankPath file.1 then some file.2
            else fs.files p }
        (fun pr hpr => hw pr (by simp [hpr]))
      exact ⟨fs1, by rw [ensureFilesLoop, if_neg he, hwf]; exact h1⟩

/-! ## Claims about store initialization -/

/-- C7: init on a fresh directory creates exactly the three named
default documents with their fixed default content (every default path
gets its default content and no other path changes) and marks the
manager initialized; a second call after success is a no-op; and a
document that already exists is never overwritten by init, whatever
its content. -/
theorem init_seeds_defaults (st : MemoryState) (fs : Fs) :
    (st.initialized = false → fs.failEnsureDir = none →
     (∀ pr ∈ defaultFiles, fs.files (pathJoin st.memoryBankPath pr.1) = none) →
     (∀ pr ∈ defaultFiles, fs.failWrite (pathJoin st.memoryBankPath pr.1) = none) →
     ((∀ pr ∈ defaultFiles,
        (init st fs).map (fun r => r.2.files (pathJoin st.memoryBankPath pr.1)) =
          .ok (some pr.2)) ∧
      (init st fs).map (fun r => r.1.initialized) = .ok true ∧
      (∀ p, (∀ pr ∈ defaultFiles, p ≠ pathJoin st.memoryBankPath pr.1) →
        (init st fs).map (fun r => r.2.files p) = .ok (fs.files p)))) ∧
    (st.initialized = true → init st fs = .ok (st, fs)) ∧
    (∀ st1 fs1 p c, init st fs = .ok (st1, fs1) →
      fs.files p = some c → fs1.files p = some c) := by
  refine ⟨?_, ?_, ?_⟩
  · intro hinit hdir habsent hwrite
    obtain ⟨fs1, hloop⟩ := ensureFilesLoop_total st defaultFiles fs hwrite
    have hinit_eq : init st fs = .ok ({ st with initialized := true }, fs1) := by
      simp [init, hinit, hdir, ensureDefaultFiles, hloop]
    have hpw : List.Pairwise (fun x y : String × String =>
        pathJoin st.memoryBankPath x.1 ≠ pathJoin st.memoryBankPath y.1)
        defaultFiles := by
      have hnn : ∀ {a b : String}, a ≠ b →
          pathJoin st.memoryBankPath a ≠ pathJoin st.memoryBankPath b :=
        fun hab h => hab (pathJoin_inj _ h)
      simp only [defaultFiles]
      refine List.Pairwise.cons ?_ (List.Pairwise.cons ?_
        (List.Pairwise.cons ?_ List.Pairwise.nil))
      · intro y hy
        rw [List.mem_cons, List.mem_singleton] at hy
        rcases hy with rfl | rfl
        · exact hnn (by decide)
        · exact hnn (by decide)
      · intro y hy
        rw [List.mem_singleton] at hy
        subst hy
        exact hnn (by decide)
      · intro y hy
        exact absurd hy (List.not_mem_nil y)
    refine ⟨?_, ?_, ?_⟩
    · intro pr hpr
      simp only [hinit_eq, Except.map]
      exact congrArg Except.ok
        (ensureFilesLoop_creates st defaultFiles fs fs1 hloop hpw pr hpr
          (habsent pr hpr))
    · simp only [hinit_eq, Except.map]
    · intro p hp
      simp only [hinit_eq, Except.map]
      exact congrArg Except.ok (ensureFilesLoop_frame st defaultFiles fs fs1 hloop p hp)
  · intro h
    simp [init, h]
  · intro st1 fs1 p c hok hp
    by_cases hi : st.initialized
    · rw [init, if_pos hi] at hok
      simp only [Except.ok.injEq, Prod.mk.injEq] at hok
      rw [← hok.2]
      exact hp
    · rw [init, if_neg hi] at hok
      cases hd : fs.failEnsureDir with
      | some e => rw [hd] at hok; exact Except.noConfusion hok
      | none =>
        rw [hd] at hok
        cases hl : ensureDefaultFiles st fs with
        | error e => rw [hl] at hok; exact Except.noConfusion hok
        | ok fs2 =>
          rw [hl] at hok
          simp only [Except.ok.injEq, Prod.mk.injEq] at hok
          rw [← hok.2]
          exact ensureFilesLoop_preserves st defaultFiles fs fs2 hl p c hp

/-- C7 (witness): the init theorem applied to the fresh store st0 over
fsFresh (seeding and frame), to the initialized manager mbSt over fsA
(idempotence), and to the pre-existing document a.md (no overwrite). -/
theorem init_seeds_defaults_witness :
    (st0.initialized = false ∧ fsFresh.failEnsureDir = none ∧
     fsFresh.files (pathJoin "./memory-bank" "progress.md") = none) ∧
    ((init st0 fsFresh).map
       (fun r => r.2.files (pathJoin "./memory-bank" "progress.md")) =
       .ok (some "# Progress\n\nDocument your project progress and next steps here.\n") ∧
     (init st0 fsFresh).map (fun r => r.1.initialized) = .ok true ∧
     (init st0 fsFresh).map (fun r => r.2.files "./memory-bank/other.md") =
       .ok none ∧
     init mbSt fsA = .ok (mbSt, fsA) ∧
     fsA.files (pathJoin "./memory-bank" "a.md") = some "stored") :=
  ⟨⟨by decide, by decide, by decide⟩,
   ((init_seeds_defaults st0 fsFresh).1 (by decide) (by decide)
       (by decide) (by decide)).1
     ("progress.md",
      "# Progress\n\nDocument your project progress and next steps here.\n")
     (by decide),
   ((init_seeds_defaults st0 fsFresh).1 (by decide) (by decide)
       (by decide) (by decide)).2.1,
   ((init_seeds_defaults st0 fsFresh).1 (by decide) (by decide)
       (by decide) (by decide)).2.2 "./memory-bank/other.md" (by decide),
   (init_seeds_defaults mbSt fsA).2.1 (by decide),
   (init_seeds_defaults mbSt fsA).2.2 mbSt fsA (pathJoin "./memory-bank" "a.md")
     "stored" ((init_seeds_defaults mbSt fsA).2.1 (by decide)) (by decide)⟩

/-- The size-summing reduce of getStats on a list of stat-able files
adds their sizes to the accumulator. -/
theorem sumSizesLoop_ok (st : MemoryState) (fs : Fs) (size : String → Nat) :
    ∀ (l : List String) (total : Nat),
      (∀ f ∈ l, statSize fs (pathJoin st.memoryBankPath f) = .ok (size f)) →
      sumSizesLoop st fs l total = .ok (total + (l.map size).sum) := by
  intro l
  induction l with
  | nil => intro total _; simp [sumSizesLoop]
  | cons f rest ih =>
    intro total h
    have hf : statSize fs (pathJoin st.memoryBankPath f) = .ok (size f) :=
      h f (by simp)
    have ihr := ih (total + size f) (fun g hg => h g (by simp [hg]))
    simp only [sumSizesLoop, hf, ihr, List.map_cons, List.sum_cons]
    congr 1
    omega

/-- The size-summing reduce of getStats aborts with the error of the
first file whose stat fails. -/
theorem sumSizesLoop_error (st : MemoryState) (fs : Fs) (e f : String)
    (post : List String)
    (hf : statSize fs (pathJoin st.memoryBankPath f) = .error e) :
    ∀ (pre : List String) (total : Nat),
      (∀ g ∈ pre, ∃ s, statSize fs (pathJoin st.memoryBankPath g) = .ok s) →
      sumSizesLoop st fs (pre ++ f :: post) total = .error e := by
  intro pre
  induction pre with
  | nil => intro total _; simp [sumSizesLoop, hf]
  | cons g rest ih =>
    intro total h
    obtain ⟨s, hs⟩ := h g (by simp)
    rw [List.cons_append]
    simp only [sumSizesLoop, hs]
    exact ih (total + s) (fun g2 hg2 => h g2 (by simp [hg2]))

/-! ## Claims about store statistics -/

/-- C9: getStats is a total function (it never throws); when the
directory listing and every file stat succeed it returns the normal
payload whose totalSize is the sum of the byte sizes of every listed
document, together with the path, the file count and the initialized
flag; when the listing fails, or any stat fails mid-computation, it
returns the degraded payload carrying that error and the initialized
flag. -/
theorem getStats_never_throws (st : MemoryState) (fs : Fs) :
    (∀ (entries : List String) (size : String → Nat),
      fs.dirEntries = some entries →
      (∀ f ∈ entries.filter (fun g => jsEndsWith g ".md"),
        statSize fs (pathJoin st.memoryBankPath f) = .ok (size f)) →
      getStats st fs = .ok st.memoryBankPath
        (entries.filter (fun g => jsEndsWith g ".md")).length
        ((entries.filter (fun g => jsEndsWith g ".md")).map size).sum
        st.initialized) ∧
    (fs.dirEntries = none →
      getStats st fs = .degraded "Failed to list Memory Bank files" st.initialized) ∧
    (∀ (entries pre post : List String) (f e : String),
      fs.dirEntries = some entries →
      entries.filter (fun g => jsEndsWith g ".md") = pre ++ f :: post →
      (∀ g ∈ pre, ∃ s, statSize fs (pathJoin st.memoryBankPath g) = .ok s) →
      statSize fs (pathJoin st.memoryBankPath f) = .error e →
      getStats st fs = .degraded e st.initialized) := by
  refine ⟨?_, ?_, ?_⟩
  · intro entries size hdir hsz
    have hsum := sumSizesLoop_ok st fs size
      (entries.filter (fun g => jsEndsWith g ".md")) 0 hsz
    simp only [getStats, listMemoryFiles, hdir, hsum, Nat.zero_add]
  · intro hdir
    simp [getStats, listMemoryFiles, hdir]
  · intro entries pre post f e hdir hsplit hpre hf
    have hsum := sumSizesLoop_error st fs e f post hf pre 0 hpre
    simp only [getStats, listMemoryFiles, hdir, hsplit, hsum]

/-- C9 (witness): the stats theorem applied to fsA (success, one
six-byte document), to fsNoDir (listing failure), and to fsMissing
(stat failure on a listed but missing document). -/
theorem getStats_never_throws_witness :
    (fsA.dirEntries = some ["a.md", "note.txt"] ∧
     fsNoDir.dirEntries = none ∧
     fsMissing.dirEntries = some ["a.md"] ∧
     statSize fsMissing (pathJoin "./memory-bank" "a.md") =
       .error "ENOENT: no such file ./memory-bank/a.md") ∧
    (getStats mbSt fsA = .ok "./memory-bank" 1 6 true ∧
     getStats mbSt fsNoDir = .degraded "Failed to list Memory Bank files" true ∧
     getStats mbSt fsMissing =
       .degraded "ENOENT: no such file ./memory-bank/a.md" true) :=
  ⟨⟨by decide, by decide, by decide, by decide⟩,
   (getStats_never_throws mbSt fsA).1 ["a.md", "note.txt"] (fun _ => 6)
     (by decide) (by decide),
   (getStats_never_throws mbSt fsNoDir).2.1 (by decide),
   (getStats_never_throws mbSt fsMissing).2.2 ["a.md"] [] [] "a.md"
     "ENOENT: no such file ./memory-bank/a.md" (by decide) (by decide)
     (by simp) (by decide)⟩
